import Mathlib

/-!
Verification of the structured audit and scoring engine of an SEO analysis
backend. The definitions below are a shallow embedding of the JavaScript
`analyzeSEO` pipeline: JSON-LD values become the mutual inductive `JVal`
family, the stateful recursive schema-type walk becomes the mutual
`extractSchemaTypes` functions over an explicit `SchemaState`, JavaScript
string operations are modelled over character lists (JavaScript `\s` is
modelled by `Char.isWhitespace`, i.e. the ASCII whitespace subset), and
`Math.round` on a non-negative quotient is modelled as `round` on `ℚ`
followed by `Int.toNat`. Regex engines and the DOM query layer are treated
as oracles: their outputs (match lists, element texts, attribute values)
are the inputs of the embedded functions, exactly as the code consumes them.
-/

/-!
JSON values as produced by `JSON.parse`, as a mutual inductive family so
that all traversals are structural. `num` carries an `Int`; fractional
numbers play no role in any path modelled here.
-/
mutual
inductive JVal where
  | str (s : String)
  | num (n : Int)
  | bool (b : Bool)
  | null
  | arr (xs : JArr)
  | obj (fields : JObj)
inductive JArr where
  | nil
  | cons (hd : JVal) (tl : JArr)
inductive JObj where
  | nil
  | cons (key : String) (val : JVal) (tl : JObj)
end

def JArr.ofList : List JVal → JArr
  | [] => JArr.nil
  | x :: xs => JArr.cons x (JArr.ofList xs)

def JArr.toList : JArr → List JVal
  | JArr.nil => []
  | JArr.cons x xs => x :: JArr.toList xs

def JObj.ofList : List (String × JVal) → JObj
  | [] => JObj.nil
  | (k, v) :: xs => JObj.cons k v (JObj.ofList xs)

/-- Property access `o[key]` on a parsed JSON object (parsed objects have
unique keys, so first-match lookup is the accessor). -/
def jlookup : JObj → String → Option JVal
  | JObj.nil, _ => none
  | JObj.cons k v rest, key => if key = k then some v else jlookup rest key

/-- Property access `v[key]`: `undefined` (`none`) on non-objects. -/
def getField : JVal → String → Option JVal
  | JVal.obj fields, k => jlookup fields k
  | _, _ => none

/-- JavaScript truthiness of a JSON value. -/
def truthy : JVal → Bool
  | JVal.str s => s.length != 0
  | JVal.num n => n != 0
  | JVal.bool b => b
  | JVal.null => false
  | JVal.arr _ => true
  | JVal.obj _ => true

def jStr (s : String) : JVal := JVal.str s

def jArr (xs : List JVal) : JVal := JVal.arr (JArr.ofList xs)

def jObj (fields : List (String × JVal)) : JVal := JVal.obj (JObj.ofList fields)

/-- `pat` occurs at the head of the text. -/
def leadsWith : List Char → List Char → Bool
  | [], _ => true
  | _ :: _, [] => false
  | p :: ps, c :: cs => p = c && leadsWith ps cs

/-- `text.includes(pat)` over character lists. -/
def hasSubstr (pat : List Char) : List Char → Bool
  | [] => leadsWith pat []
  | c :: cs => leadsWith pat (c :: cs) || hasSubstr pat cs

/-- JavaScript `String.prototype.trim`. -/
def trimWS (s : String) : String :=
  String.mk (((s.toList.dropWhile Char.isWhitespace).reverse.dropWhile Char.isWhitespace).reverse)

/-- Worker for `replace(/\s+/g, " ")`: the flag records whether the previous
character was whitespace, so each maximal whitespace run yields one space. -/
def collapseGo : Bool → List Char → List Char
  | _, [] => []
  | prevWS, c :: cs =>
    if c.isWhitespace then
      (if prevWS then collapseGo true cs else ' ' :: collapseGo true cs)
    else c :: collapseGo false cs

/-- `s.replace(/\s+/g, " ")`. -/
def collapseWS (s : String) : String := String.mk (collapseGo false s.toList)

/-- `$("body").text().replace(/\s+/g, " ").trim()`. -/
def normalizedBody (s : String) : String := trimWS (collapseWS s)

/-- Split on single spaces, keeping empty tokens, as JavaScript
`split(/\s+/)` behaves on text that is already whitespace-collapsed and
trimmed; in particular the empty string yields the single token `""`. -/
def splitTok : List Char → List Char → List String
  | acc, [] => [String.mk acc.reverse]
  | acc, c :: cs =>
    if c = ' ' then String.mk acc.reverse :: splitTok [] cs else splitTok (c :: acc) cs

/-- `bodyText.split(/\s+/).length` applied to the normalized body text. -/
def wordCount (bodyText : String) : Nat :=
  (splitTok [] (normalizedBody bodyText).toList).length

/-- State threaded through the recursive schema walk: the ordered list of
unique type strings plus the three flags the walk updates. -/
structure SchemaState where
  schemaTypes : List String
  hasIdentitySchema : Bool
  identityType : String
  hasLocalBusinessSchema : Bool
deriving DecidableEq, Repr

/-- `type === "Organization" || type === "Person" || type === "Corporation"
|| type === "LocalBusiness"`. -/
def isIdentityType (s : String) : Bool :=
  s = "Organization" || s = "Person" || s = "Corporation" || s = "LocalBusiness"

/-- `type === "LocalBusiness" || type.includes("LocalBusiness") || type ===
"Restaurant" || type === "Store" || type === "MedicalBusiness" || type ===
"ProfessionalService"`. -/
def isLocalBusinessType (s : String) : Bool :=
  s = "LocalBusiness" || hasSubstr "LocalBusiness".toList s.toList || s = "Restaurant" ||
    s = "Store" || s = "MedicalBusiness" || s = "ProfessionalService"

/-- One `types.forEach` body: a truthy type not yet present is appended and
the identity / local-business flags are updated (only for new types). -/
def addType (t : String) (st : SchemaState) : SchemaState :=
  if t ≠ "" ∧ t ∉ st.schemaTypes then
    { schemaTypes := st.schemaTypes ++ [t]
      hasIdentitySchema := st.hasIdentitySchema || isIdentityType t
      identityType := if isIdentityType t then t else st.identityType
      hasLocalBusinessSchema := st.hasLocalBusinessSchema || isLocalBusinessType t }
  else st

def addTypes (ts : List String) (st : SchemaState) : SchemaState :=
  ts.foldl (fun s t => addType t s) st

def asTypeString : JVal → Option String
  | JVal.str s => some s
  | _ => none

/-- The strings offered by a `@type` value: a string is a singleton, an
array contributes its string entries, anything else none. The code skips
falsy entries (`type &&` guards the push), which this agrees with; a
TRUTHY non-string entry is outside this model's domain: the code pushes
the raw value into `schemaTypes` (arrays and objects deduplicated by
reference, which no value embedding can track) and then, for every
non-array, throws on `type.includes`, truncating that script's walk.
`typeValOk` below bounds the domain; claims characterizing `schemaTypes`
exactly carry it as a hypothesis. -/
def typeStrings : JVal → List String
  | JVal.str s => [s]
  | JVal.arr xs => xs.toList.filterMap asTypeString
  | _ => []

/-- A single `@type` entry within the model's domain: strings are
modelled, falsy non-strings are skipped by the code's `type &&` guard
exactly as the model drops them, truthy non-strings are out (see
`typeStrings`). -/
def typeEntryOk : JVal → Bool
  | JVal.str _ => true
  | JVal.num n => n == 0
  | JVal.bool b => !b
  | JVal.null => true
  | JVal.arr _ => false
  | JVal.obj _ => false

/-- A whole `@type` value within the model's domain: every entry of an
array value is in the domain, a non-array value is a single entry. -/
def typeValOk : JVal → Bool
  | JVal.arr xs => xs.toList.all typeEntryOk
  | v => typeEntryOk v

/-- `schema["@graph"] && Array.isArray(schema["@graph"])`. -/
def hasGraphArr (fields : JObj) : Bool :=
  match jlookup fields "@graph" with
  | some (JVal.arr _) => true
  | _ => false

/-- The `if (schema["@type"]) { ... types.forEach ... }` step of the walk. -/
def typeStep (fields : JObj) (st : SchemaState) : SchemaState :=
  match jlookup fields "@type" with
  | some tv => addTypes (typeStrings tv) st
  | none => st

/-!
The recursive type walk of the source, split into mutual structural
functions: an object with an `@graph` array is replaced by its graph
members (`extractGraphOf` / `extractGraph`); otherwise its `@type` is
recorded (`typeStep`) and every field value is visited (`extractFields`:
object values recursed into, array values iterated with object or array
items recursed into); a bare array behaves as its `Object.values`, i.e.
its elements (`extractValues`).
-/
mutual
def extractSchemaTypes : JVal → SchemaState → SchemaState
  | JVal.obj fields, st =>
    if hasGraphArr fields then extractGraphOf fields st
    else extractFields fields (typeStep fields st)
  | JVal.arr xs, st => extractValues xs st
  | _, st => st

def extractGraphOf : JObj → SchemaState → SchemaState
  | JObj.nil, st => st
  | JObj.cons k v rest, st =>
    if k = "@graph" then
      match v with
      | JVal.arr items => extractGraph items st
      | _ => st
    else extractGraphOf rest st

def extractGraph : JArr → SchemaState → SchemaState
  | JArr.nil, st => st
  | JArr.cons x xs, st => extractGraph xs (extractSchemaTypes x st)

def extractFields : JObj → SchemaState → SchemaState
  | JObj.nil, st => st
  | JObj.cons _ v rest, st =>
    let st1 := match v with
      | JVal.obj fs => extractSchemaTypes (JVal.obj fs) st
      | JVal.arr items => extractItems items st
      | _ => st
    extractFields rest st1

def extractValues : JArr → SchemaState → SchemaState
  | JArr.nil, st => st
  | JArr.cons v vs, st =>
    let st1 := match v with
      | JVal.obj fs => extractSchemaTypes (JVal.obj fs) st
      | JVal.arr items => extractItems items st
      | _ => st
    extractValues vs st1

def extractItems : JArr → SchemaState → SchemaState
  | JArr.nil, st => st
  | JArr.cons x xs, st =>
    let st1 := match x with
      | JVal.obj fs => extractSchemaTypes (JVal.obj fs) st
      | JVal.arr ys => extractSchemaTypes (JVal.arr ys) st
      | _ => st
    extractItems xs st1
end

def initSchemaState : SchemaState := ⟨[], false, "", false⟩

/-- One iteration of `ldJsonScripts.each`: a script whose body is missing
or fails `JSON.parse` (modelled as `none`) is skipped, a parsed script is
walked. -/
def scriptStep (st : SchemaState) (s : Option JVal) : SchemaState :=
  match s with
  | none => st
  | some v => extractSchemaTypes v st

/-- The whole `ldJsonScripts.each` loop over the parse results of the
JSON-LD script tags, in document order. -/
def processScripts (scripts : List (Option JVal)) : SchemaState :=
  scripts.foldl scriptStep initSchemaState

/-- `schema["@type"]` contribution as a pure list. -/
def typeHead (fields : JObj) : List String :=
  match jlookup fields "@type" with
  | some tv => typeStrings tv
  | none => []

/-!
The sequence of type strings the walk offers to the state, in visit
order, with multiplicity: the pure shadow of `extractSchemaTypes` (the
visit order never depends on the state, which only deduplicates).
-/
mutual
def codeTypes : JVal → List String
  | JVal.obj fields =>
    if hasGraphArr fields then graphTypesOf fields
    else typeHead fields ++ fieldTypes fields
  | JVal.arr xs => valueTypes xs
  | _ => []

def graphTypesOf : JObj → List String
  | JObj.nil => []
  | JObj.cons k v rest =>
    if k = "@graph" then
      match v with
      | JVal.arr items => graphTypes items
      | _ => []
    else graphTypesOf rest

def graphTypes : JArr → List String
  | JArr.nil => []
  | JArr.cons x xs => codeTypes x ++ graphTypes xs

def fieldTypes : JObj → List String
  | JObj.nil => []
  | JObj.cons _ v rest =>
    (match v with
      | JVal.obj fs => codeTypes (JVal.obj fs)
      | JVal.arr items => itemTypes items
      | _ => []) ++ fieldTypes rest

def valueTypes : JArr → List String
  | JArr.nil => []
  | JArr.cons v vs =>
    (match v with
      | JVal.obj fs => codeTypes (JVal.obj fs)
      | JVal.arr items => itemTypes items
      | _ => []) ++ valueTypes vs

def itemTypes : JArr → List String
  | JArr.nil => []
  | JArr.cons x xs =>
    (match x with
      | JVal.obj fs => codeTypes (JVal.obj fs)
      | JVal.arr ys => codeTypes (JVal.arr ys)
      | _ => []) ++ itemTypes xs
end

/-- Types contributed by one script tag: none for a parse failure. -/
def scriptTypes : Option JVal → List String
  | none => []
  | some v => codeTypes v

/-- The full visit sequence of the script loop, in document order. -/
def allScriptTypes (scripts : List (Option JVal)) : List String :=
  (scripts.map scriptTypes).flatten

/-- The pure step `schemaTypes` takes for each offered type string. -/
def typeFold (acc : List String) (t : String) : List String :=
  if t ≠ "" ∧ t ∉ acc then acc ++ [t] else acc

/-- First-seen deduplication (dropping empty strings) of a type sequence. -/
def firstSeenTypes (ts : List String) : List String := ts.foldl typeFold []

/-- Invariant tying `identityType` to the identity types recorded so far:
it is the most recently recorded one. -/
def identInv (st : SchemaState) : Prop :=
  (st.schemaTypes.filter isIdentityType).getLast? =
    if st.hasIdentitySchema then some st.identityType else none

/-- `Math.round((num / den) * 100)` for non-negative operands. -/
def pctRound (num den : Nat) : Nat := (round ((num : ℚ) / (den : ℚ) * 100)).toNat

/-- `htmlSize > 0 ? Math.round((textSize / htmlSize) * 100) : 0`. -/
def renderingPercentage (htmlSize textSize : Nat) : Nat :=
  if 0 < htmlSize then pctRound textSize htmlSize else 0

/-! ### Page facts feeding the scoring engine -/

structure MetaTags where
  hasTitle : Bool
  titleLength : Nat
  hasDescription : Bool
  descriptionLength : Nat
deriving DecidableEq, Repr

/-- The `metaTags` record, from the (cleaned) title and the description. -/
def mkMetaTags (title description : String) : MetaTags :=
  { hasTitle := decide (0 < title.length)
    titleLength := title.length
    hasDescription := decide (0 < description.length)
    descriptionLength := description.length }

structure Headings where
  h1Count : Nat
  h2Count : Nat
  h3Count : Nat
  h4Count : Nat
  h5Count : Nat
  h6Count : Nat
  h1Text : List String
deriving DecidableEq, Repr

structure ImageTag where
  src : String
  alt : Option String
deriving DecidableEq, Repr

/-- `alt !== undefined && alt !== null && alt.trim().length > 0`. -/
def imgHasAlt (img : ImageTag) : Bool :=
  match img.alt with
  | some a => decide (0 < (trimWS a).length)
  | none => false

structure ImagesData where
  total : Nat
  withAlt : Nat
  withoutAlt : Nat
  altPercentage : Nat
deriving DecidableEq, Repr

/-- The `imagesData` record built from the `<img>` tags in document order. -/
def mkImagesData (imgs : List ImageTag) : ImagesData :=
  { total := imgs.length
    withAlt := (imgs.filter imgHasAlt).length
    withoutAlt := imgs.length - (imgs.filter imgHasAlt).length
    altPercentage :=
      if 0 < imgs.length then pctRound (imgs.filter imgHasAlt).length imgs.length else 100 }

structure ContentFacts where
  wordCount : Nat
deriving DecidableEq, Repr

structure TechnicalFacts where
  hasSSL : Bool
  hasRobotsTxt : Bool
  hasSitemap : Bool
  hasAnalytics : Bool
  hasSchema : Bool
  hasJsonLd : Bool
deriving DecidableEq, Repr

structure LocalFacts where
  hasPhone : Bool
  hasAddress : Bool
  hasLocalBusinessSchema : Bool
deriving DecidableEq, Repr

structure SocialFacts where
  hasFacebookPage : Bool
  hasInstagram : Bool
  hasTwitter : Bool
  hasLinkedIn : Bool
  hasYouTube : Bool
deriving DecidableEq, Repr

/-- `hasAnyStructuredData = schemaTypes.length > 0 || hasMicrodata || hasRDFa`. -/
def hasAnyStructuredData (scripts : List (Option JVal)) (hasMicrodata hasRDFa : Bool) : Bool :=
  decide (0 < (processScripts scripts).schemaTypes.length) || hasMicrodata || hasRDFa

/-- `hasJsonLd = ldJsonScripts.length > 0 && schemaTypes.length > 0`. -/
def hasJsonLdOf (scripts : List (Option JVal)) : Bool :=
  decide (0 < scripts.length) && decide (0 < (processScripts scripts).schemaTypes.length)

/-! ### The 100-point scoring block, one definition per rule -/

def titlePoints (m : MetaTags) : Nat :=
  if m.hasTitle then
    if 50 ≤ m.titleLength ∧ m.titleLength ≤ 60 then 12
    else if 30 ≤ m.titleLength ∧ m.titleLength ≤ 70 then 4
    else 1
  else 0

def descriptionPoints (m : MetaTags) : Nat :=
  if m.hasDescription then
    if 120 ≤ m.descriptionLength ∧ m.descriptionLength ≤ 160 then 8
    else if 50 ≤ m.descriptionLength ∧ m.descriptionLength ≤ 200 then 2
    else 1
  else 0

def h1Points (h : Headings) : Nat :=
  if h.h1Count = 1 then
    match h.h1Text with
    | t :: _ => if 20 ≤ t.length then 8 else 1
    | [] => 1
  else if 1 < h.h1Count then 1
  else 0

def headingStructurePoints (h : Headings) : Nat :=
  if 3 ≤ h.h2Count ∧ (2 ≤ h.h3Count ∨ 1 ≤ h.h4Count) then 5
  else if 2 ≤ h.h2Count then 2
  else 0

def altTextPoints (img : ImagesData) : Nat :=
  if 0 < img.total then
    if img.altPercentage = 100 then 4
    else if 80 ≤ img.altPercentage then 2
    else if 50 ≤ img.altPercentage then 1
    else 0
  else 2

def contentPoints (c : ContentFacts) : Nat :=
  if 1000 ≤ c.wordCount then 8
  else if 500 ≤ c.wordCount then 3
  else if 300 ≤ c.wordCount then 1
  else if 50 ≤ c.wordCount then 1
  else 0

/-- The On-Page accumulator after its six rule blocks. -/
def onPagePoints (m : MetaTags) (h : Headings) (img : ImagesData) (c : ContentFacts) : Nat :=
  titlePoints m + descriptionPoints m + h1Points h + headingStructurePoints h +
    altTextPoints img + contentPoints c

/-- The Technical accumulator: SSL 5, robots.txt 3+2, sitemap 3+2,
analytics 3, schema 12 with JSON-LD else 4. -/
def technicalPoints (t : TechnicalFacts) : Nat :=
  (if t.hasSSL then 5 else 0) + (if t.hasRobotsTxt then 3 + 2 else 0) +
    (if t.hasSitemap then 3 + 2 else 0) + (if t.hasAnalytics then 3 else 0) +
    (if t.hasSchema then (if t.hasJsonLd then 12 else 4) else 0)

/-- The Local accumulator: phone 3, address 4, local-business schema 8. -/
def localPoints (l : LocalFacts) : Nat :=
  (if l.hasPhone then 3 else 0) + (if l.hasAddress then 4 else 0) +
    (if l.hasLocalBusinessSchema then 8 else 0)

def socialLinksCount (s : SocialFacts) : Nat :=
  (if s.hasFacebookPage then 1 else 0) + (if s.hasInstagram then 1 else 0) +
    (if s.hasTwitter then 1 else 0) + (if s.hasLinkedIn then 1 else 0) +
    (if s.hasYouTube then 1 else 0)

def socialPoints (s : SocialFacts) : Nat :=
  if 2 ≤ socialLinksCount s then 10
  else if socialLinksCount s = 1 then 5
  else 0

/-- `score = scoreBreakdown.onPage + scoreBreakdown.technical +
scoreBreakdown.local + scoreBreakdown.social`. -/
def totalScore (m : MetaTags) (h : Headings) (img : ImagesData) (c : ContentFacts)
    (t : TechnicalFacts) (l : LocalFacts) (s : SocialFacts) : Nat :=
  onPagePoints m h img c + technicalPoints t + localPoints l + socialPoints s

/-- The descending else-if grade ladder, starting from `"F"`. -/
def gradeOf (score : Nat) : String :=
  if 90 ≤ score then "A+"
  else if 85 ≤ score then "A"
  else if 80 ≤ score then "A-"
  else if 75 ≤ score then "B+"
  else if 70 ≤ score then "B"
  else if 65 ≤ score then "B-"
  else if 60 ≤ score then "C+"
  else if 55 ≤ score then "C"
  else if 50 ≤ score then "C-"
  else if 45 ≤ score then "D+"
  else if 40 ≤ score then "D"
  else if 35 ≤ score then "D-"
  else "F"

/-! ### Phone detection -/

structure PhoneMatch where
  source : String
  value : String
deriving DecidableEq, Repr

/-- The body-text matches of the four phone regex families, in pattern
order (all matches of all patterns appended), tagged `"bodyText"`. The
match lists themselves are regex-engine outputs, taken as inputs. -/
def bodyPhoneMatches (pat1 pat2 pat3 pat4 : List String) : List PhoneMatch :=
  (pat1 ++ pat2 ++ pat3 ++ pat4).map (fun m => ⟨"bodyText", m⟩)

/-- `displayText && /\d/.test(displayText)` for a tel: link's trimmed
display text. -/
def telValid (telText : String) : Bool :=
  decide (0 < (trimWS telText).length) && (trimWS telText).toList.any Char.isDigit

/-- The `telLinks.each` loop: every valid tel: display text is unshifted
onto the front of the candidate list, in document order. -/
def phoneMatchesOf (pat1 pat2 pat3 pat4 telTexts : List String) : List PhoneMatch :=
  telTexts.foldl
    (fun acc t => if telValid t then ⟨"tel:link", trimWS t⟩ :: acc else acc)
    (bodyPhoneMatches pat1 pat2 pat3 pat4)

/-- `phoneMatches.length > 0 ? phoneMatches[0].value : null`. -/
def detectPhone (pat1 pat2 pat3 pat4 telTexts : List String) : Option String :=
  ((phoneMatchesOf pat1 pat2 pat3 pat4 telTexts).head?).map PhoneMatch.value

/-- The valid tel: display texts (trimmed), in document order. -/
def validTelDisplays (telTexts : List String) : List String :=
  telTexts.filterMap (fun t => if telValid t then some (trimWS t) else none)

/-!
`String(value)` for the JSON values that can appear as address parts: an
array stringifies as its comma-joined elements with `null` rendered empty,
an object as `"[object Object]"`.
-/
mutual
def jsToString : JVal → String
  | JVal.str s => s
  | JVal.num n => toString n
  | JVal.bool b => if b then "true" else "false"
  | JVal.null => "null"
  | JVal.arr xs => jsJoinComma xs
  | JVal.obj _ => "[object Object]"

def jsJoinComma : JArr → String
  | JArr.nil => ""
  | JArr.cons JVal.null JArr.nil => ""
  | JArr.cons x JArr.nil => jsToString x
  | JArr.cons JVal.null xs => "," ++ jsJoinComma xs
  | JArr.cons x xs => jsToString x ++ "," ++ jsJoinComma xs
end

/-- `Array.prototype.join(sep)` over already-stringified parts. -/
def joinSep (sep : String) : List String → String
  | [] => ""
  | [x] => x
  | x :: xs => x ++ sep ++ joinSep sep xs

/-- The inner `extractAddress(obj)` of the Schema.org address scan: a
truthy string `address` longer than 15 characters is returned as is; an
`address` with a truthy `streetAddress` yields the `", "`-join of the
truthy entries of street, locality, region and postal code; anything else
yields nothing. -/
def extractAddress (o : JVal) : Option String :=
  match getField o "address" with
  | some a =>
    if truthy a then
      match a with
      | JVal.str s => if 15 < s.length then some s else none
      | _ =>
        match getField a "streetAddress" with
        | some sv =>
          if truthy sv then
            some (joinSep ", "
              ((([getField a "streetAddress", getField a "addressLocality",
                  getField a "addressRegion", getField a "postalCode"].filterMap id).filter
                  truthy).map jsToString))
          else none
        | none => none
    else none
  | none => none

/-- The `@graph` loop of the address scan: members are scanned in order
and the first truthy (non-empty) address breaks the loop; a falsy-address
member is passed over. A `null` member is different: `null.address` throws
a `TypeError` into the per-script catch, so the whole script's address
scan is aborted — later members are never reached and the script yields
nothing. -/
def graphAddrScan : List JVal → Option String
  | [] => none
  | JVal.null :: _ => none
  | item :: rest =>
    match extractAddress item with
    | some s => if s ≠ "" then some s else graphAddrScan rest
    | none => graphAddrScan rest

/-- One script's address candidate: with a truthy `@graph` array the
members are scanned by `graphAddrScan`; a truthy non-array `@graph`
contributes nothing (iterating a string yields no address, iterating any
other truthy non-array throws into the per-script catch); otherwise the
schema value itself is scanned (a `null` schema also yields nothing: the
code throws on `null["@graph"]` into the same catch). -/
def schemaAddress (schema : JVal) : Option String :=
  match getField schema "@graph" with
  | some (JVal.arr items) => graphAddrScan items.toList
  | some g => if truthy g then none else extractAddress schema
  | none => extractAddress schema

/-- Acceptance for one script: `if (addr && addr.length > 15)` sets the
address and breaks out of the script loop. -/
def acceptAddr (s : Option JVal) : Option String :=
  match s with
  | none => none
  | some schema =>
    match schemaAddress schema with
    | some a => if 15 < a.length then some a else none
    | none => none

/-- The Schema.org pass over all script parse results, in document order,
stopping at the first accepted address. -/
def findSchemaAddress (scripts : List (Option JVal)) : Option String :=
  scripts.findSome? acceptAddr

structure AddressCandidate where
  text : String
  source : String
deriving DecidableEq, Repr

/-- `$(el).text().trim().replace(/\s+/g, " ")`. -/
def normAddrText (t : String) : String := collapseWS (trimWS t)

/-- The oracle inputs of the fallback address scan: regex match lists over
the body text and the texts of the queried elements, in document order
(`selectorTexts` pairs each fixed selector with one matched element
text, flattened in the fixed selector order). -/
structure AddressScanInputs where
  usMatches : List String
  poBoxMatches : List String
  microTexts : List String
  selectorTexts : List (String × String)
deriving DecidableEq, Repr

/-- The fallback candidate list: US-street regex matches, then PO-Box
regex matches, then microdata `itemprop*=address` element texts with
normalized length in (15, 200), then the fixed address-selector element
texts with normalized length in (15, 200) containing a digit. -/
def fallbackCandidates (inp : AddressScanInputs) : List AddressCandidate :=
  (inp.usMatches.map fun m => ⟨m, "US address pattern"⟩)
    ++ (inp.poBoxMatches.map fun m => ⟨m, "PO Box pattern"⟩)
    ++ (inp.microTexts.filterMap fun t =>
        if 15 < (normAddrText t).length ∧ (normAddrText t).length < 200 then
          some ⟨normAddrText t, "Microdata itemprop"⟩
        else none)
    ++ (inp.selectorTexts.filterMap fun p =>
        if 15 < (normAddrText p.2).length ∧ (normAddrText p.2).length < 200 ∧
            (normAddrText p.2).toList.any Char.isDigit then
          some ⟨normAddrText p.2, "CSS selector: " ++ p.1⟩
        else none)

/-- The whole address pipeline: the Schema.org pass first; only if it
accepted nothing is the fallback candidate list consulted, whose first
candidate wins (its text trimmed once more). -/
def detectAddress (scripts : List (Option JVal)) (inp : AddressScanInputs) :
    Option AddressCandidate :=
  match findSchemaAddress scripts with
  | some a => some ⟨a, "Schema.org"⟩
  | none =>
    match fallbackCandidates inp with
    | [] => none
    | c :: _ => some ⟨trimWS c.text, c.source⟩

/-- The `@type` value (if any) of one object is within the domain. -/
def typeFieldOk (fields : JObj) : Bool :=
  match jlookup fields "@type" with
  | some tv => typeValOk tv
  | none => true

/-!
Every `@type` value anywhere in a JSON value is within the model's
domain (`typeValOk`): on such inputs the walk never pushes a raw
non-string and never throws on `type.includes`, so the embedded walk
agrees with the program.
-/
mutual
def typesOk : JVal → Bool
  | JVal.obj fields => typeFieldOk fields && typesOkO fields
  | JVal.arr xs => typesOkA xs
  | _ => true

def typesOkA : JArr → Bool
  | JArr.nil => true
  | JArr.cons x xs => typesOk x && typesOkA xs

def typesOkO : JObj → Bool
  | JObj.nil => true
  | JObj.cons _ v rest => typesOk v && typesOkO rest
end

/-!
Spec-side definition for the refinement comparison of the `@graph` claim:
"the union of all N members' types (including types nested arbitrarily
deep inside member objects)" — every string under an `@type` key anywhere
in the value, in document order.
-/
mutual
def allTypesSpec : JVal → List String
  | JVal.obj fields => allTypesSpecO fields
  | JVal.arr xs => allTypesSpecA xs
  | _ => []

def allTypesSpecA : JArr → List String
  | JArr.nil => []
  | JArr.cons x xs => allTypesSpec x ++ allTypesSpecA xs

def allTypesSpecO : JObj → List String
  | JObj.nil => []
  | JObj.cons k v rest =>
    (if k = "@type" then typeStrings v else []) ++ allTypesSpec v ++ allTypesSpecO rest
end

/-- A 55-character title, as in the spec's worked example. -/
def exTitle : String := String.mk (List.replicate 55 'a')

/-- A 25-character H1 text, as in the spec's worked example. -/
def exH1Text : String := String.mk (List.replicate 25 'b')

def exMetaTags : MetaTags := mkMetaTags exTitle ""

def exHeadings : Headings := ⟨1, 0, 0, 0, 0, 0, [exH1Text]⟩

/-- Ten images, all with non-empty alt text. -/
def exImages : ImagesData :=
  mkImagesData (List.replicate 10 ⟨"photo.jpg", some "storefront photo"⟩)

/-- A body of fewer than 50 words. -/
def exContent : ContentFacts := ⟨wordCount "a short body"⟩

/-- SSL only; no robots.txt, sitemap, analytics, or structured data. -/
def exTechnical : TechnicalFacts :=
  ⟨true, false, false, false, hasAnyStructuredData [] false false, hasJsonLdOf []⟩

def exLocal : LocalFacts := ⟨false, false, false⟩

def exSocial : SocialFacts := ⟨false, false, false, false, false⟩

/-- A single JSON-LD script whose `@type` lists two identity types. -/
def c3CexScripts : List (Option JVal) :=
  [some (jObj [("@type", jArr [jStr "Organization", jStr "Person"])])]

/-- A graph member carrying both its own `@type` and a nested `@graph`. -/
def c5Member : JVal :=
  jObj [("@type", jStr "X"), ("@graph", jArr [jObj [("@type", jStr "Y")]])]

def c5Fields : JObj := JObj.ofList [("@graph", jArr [c5Member])]

def c5Scripts : List (Option JVal) := [some (JVal.obj c5Fields)]

/-- A JSON-LD script with a `PostalAddress`-style object address. -/
def c4Schema : JVal :=
  jObj [("@type", jStr "LocalBusiness"),
        ("address", jObj [("streetAddress", jStr "123 Main Street"),
                          ("addressLocality", jStr "Springfield"),
                          ("addressRegion", jStr "IL"),
                          ("postalCode", jStr "62701")])]

/-- Fallback inputs with a US-street regex match in the body text. -/
def c4Inputs : AddressScanInputs :=
  ⟨["456 Oak Avenue Springfield IL 62702"], [], [], []⟩

/-- A JSON-LD script whose `@graph` holds a `null` member ahead of a
member with an acceptable string address. -/
def c4NullGraphScripts : List (Option JVal) :=
  [some (jObj [("@graph",
    jArr [JVal.null, jObj [("address", jStr "123 Main Street, Springfield")]])])]

/-- Two tel: links with digits around one without. -/
def c10TelTexts : List String := ["  555-123-4567 ", "Call us!", "(212) 555 0000"]

/-!
The mutual walks are compiled through `brecOn`, which generates no usable
equation lemmas in this toolchain; the per-constructor equations below are
proved once by `rfl` and drive every later proof.
-/

@[simp] theorem extractSchemaTypes_str (s : String) (st : SchemaState) :
    extractSchemaTypes (JVal.str s) st = st := rfl

@[simp] theorem extractSchemaTypes_num (n : Int) (st : SchemaState) :
    extractSchemaTypes (JVal.num n) st = st := rfl

@[simp] theorem extractSchemaTypes_bool (b : Bool) (st : SchemaState) :
    extractSchemaTypes (JVal.bool b) st = st := rfl

@[simp] theorem extractSchemaTypes_null (st : SchemaState) :
    extractSchemaTypes JVal.null st = st := rfl

@[simp] theorem extractSchemaTypes_arr (xs : JArr) (st : SchemaState) :
    extractSchemaTypes (JVal.arr xs) st = extractValues xs st := rfl

@[simp] theorem extractSchemaTypes_obj (fields : JObj) (st : SchemaState) :
    extractSchemaTypes (JVal.obj fields) st =
      if hasGraphArr fields then extractGraphOf fields st
      else extractFields fields (typeStep fields st) := rfl

@[simp] theorem extractGraphOf_nil (st : SchemaState) :
    extractGraphOf JObj.nil st = st := rfl

@[simp] theorem extractGraphOf_cons_arr (k : String) (items : JArr) (rest : JObj)
    (st : SchemaState) :
    extractGraphOf (JObj.cons k (JVal.arr items) rest) st =
      if k = "@graph" then extractGraph items st else extractGraphOf rest st := rfl

@[simp] theorem extractGraphOf_cons_str (k s : String) (rest : JObj) (st : SchemaState) :
    extractGraphOf (JObj.cons k (JVal.str s) rest) st =
      if k = "@graph" then st else extractGraphOf rest st := rfl

@[simp] theorem extractGraphOf_cons_num (k : String) (n : Int) (rest : JObj)
    (st : SchemaState) :
    extractGraphOf (JObj.cons k (JVal.num n) rest) st =
      if k = "@graph" then st else extractGraphOf rest st := rfl

@[simp] theorem extractGraphOf_cons_bool (k : String) (b : Bool) (rest : JObj)
    (st : SchemaState) :
    extractGraphOf (JObj.cons k (JVal.bool b) rest) st =
      if k = "@graph" then st else extractGraphOf rest st := rfl

@[simp] theorem extractGraphOf_cons_null (k : String) (rest : JObj) (st : SchemaState) :
    extractGraphOf (JObj.cons k JVal.null rest) st =
      if k = "@graph" then st else extractGraphOf rest st := rfl

@[simp] theorem extractGraphOf_cons_obj (k : String) (fs : JObj) (rest : JObj)
    (st : SchemaState) :
    extractGraphOf (JObj.cons k (JVal.obj fs) rest) st =
      if k = "@graph" then st else extractGraphOf rest st := rfl

@[simp] theorem extractGraph_nil (st : SchemaState) :
    extractGraph JArr.nil st = st := rfl

@[simp] theorem extractGraph_cons (x : JVal) (xs : JArr) (st : SchemaState) :
    extractGraph (JArr.cons x xs) st = extractGraph xs (extractSchemaTypes x st) := rfl

@[simp] theorem extractFields_nil (st : SchemaState) :
    extractFields JObj.nil st = st := rfl

@[simp] theorem extractFields_cons_obj (k : String) (fs : JObj) (rest : JObj)
    (st : SchemaState) :
    extractFields (JObj.cons k (JVal.obj fs) rest) st =
      extractFields rest (extractSchemaTypes (JVal.obj fs) st) := rfl

@[simp] theorem extractFields_cons_arr (k : String) (items : JArr) (rest : JObj)
    (st : SchemaState) :
    extractFields (JObj.cons k (JVal.arr items) rest) st =
      extractFields rest (extractItems items st) := rfl

@[simp] theorem extractFields_cons_str (k s : String) (rest : JObj) (st : SchemaState) :
    extractFields (JObj.cons k (JVal.str s) rest) st = extractFields rest st := rfl

@[simp] theorem extractFields_cons_num (k : String) (n : Int) (rest : JObj)
    (st : SchemaState) :
    extractFields (JObj.cons k (JVal.num n) rest) st = extractFields rest st := rfl

@[simp] theorem extractFields_cons_bool (k : String) (b : Bool) (rest : JObj)
    (st : SchemaState) :
    extractFields (JObj.cons k (JVal.bool b) rest) st = extractFields rest st := rfl

@[simp] theorem extractFields_cons_null (k : String) (rest : JObj) (st : SchemaState) :
    extractFields (JObj.cons k JVal.null rest) st = extractFields rest st := rfl

@[simp] theorem extractValues_nil (st : SchemaState) :
    extractValues JArr.nil st = st := rfl

@[simp] theorem extractValues_cons_obj (fs : JObj) (vs : JArr) (st : SchemaState) :
    extractValues (JArr.cons (JVal.obj fs) vs) st =
      extractValues vs (extractSchemaTypes (JVal.obj fs) st) := rfl

@[simp] theorem extractValues_cons_arr (items : JArr) (vs : JArr) (st : SchemaState) :
    extractValues (JArr.cons (JVal.arr items) vs) st =
      extractValues vs (extractItems items st) := rfl

@[simp] theorem extractValues_cons_str (s : String) (vs : JArr) (st : SchemaState) :
    extractValues (JArr.cons (JVal.str s) vs) st = extractValues vs st := rfl

@[simp] theorem extractValues_cons_num (n : Int) (vs : JArr) (st : SchemaState) :
    extractValues (JArr.cons (JVal.num n) vs) st = extractValues vs st := rfl

@[simp] theorem extractValues_cons_bool (b : Bool) (vs : JArr) (st : SchemaState) :
    extractValues (JArr.cons (JVal.bool b) vs) st = extractValues vs st := rfl

@[simp] theorem extractValues_cons_null (vs : JArr) (st : SchemaState) :
    extractValues (JArr.cons JVal.null vs) st = extractValues vs st := rfl

@[simp] theorem extractItems_nil (st : SchemaState) :
    extractItems JArr.nil st = st := rfl

@[simp] theorem extractItems_cons_obj (fs : JObj) (xs : JArr) (st : SchemaState) :
    extractItems (JArr.cons (JVal.obj fs) xs) st =
      extractItems xs (extractSchemaTypes (JVal.obj fs) st) := rfl

@[simp] theorem extractItems_cons_arr (ys : JArr) (xs : JArr) (st : SchemaState) :
    extractItems (JArr.cons (JVal.arr ys) xs) st =
      extractItems xs (extractSchemaTypes (JVal.arr ys) st) := rfl

@[simp] theorem extractItems_cons_str (s : String) (xs : JArr) (st : SchemaState) :
    extractItems (JArr.cons (JVal.str s) xs) st = extractItems xs st := rfl

@[simp] theorem extractItems_cons_num (n : Int) (xs : JArr) (st : SchemaState) :
    extractItems (JArr.cons (JVal.num n) xs) st = extractItems xs st := rfl

@[simp] theorem extractItems_cons_bool (b : Bool) (xs : JArr) (st : SchemaState) :
    extractItems (JArr.cons (JVal.bool b) xs) st = extractItems xs st := rfl

@[simp] theorem extractItems_cons_null (xs : JArr) (st : SchemaState) :
    extractItems (JArr.cons JVal.null xs) st = extractItems xs st := rfl

@[simp] theorem codeTypes_str (s : String) : codeTypes (JVal.str s) = [] := rfl

@[simp] theorem codeTypes_num (n : Int) : codeTypes (JVal.num n) = [] := rfl

@[simp] theorem codeTypes_bool (b : Bool) : codeTypes (JVal.bool b) = [] := rfl

@[simp] theorem codeTypes_null : codeTypes JVal.null = [] := rfl

@[simp] theorem codeTypes_arr (xs : JArr) : codeTypes (JVal.arr xs) = valueTypes xs := rfl

@[simp] theorem codeTypes_obj (fields : JObj) :
    codeTypes (JVal.obj fields) =
      if hasGraphArr fields then graphTypesOf fields
      else typeHead fields ++ fieldTypes fields := rfl

@[simp] theorem graphTypesOf_nil : graphTypesOf JObj.nil = [] := rfl

@[simp] theorem graphTypesOf_cons_arr (k : String) (items : JArr) (rest : JObj) :
    graphTypesOf (JObj.cons k (JVal.arr items) rest) =
      if k = "@graph" then graphTypes items else graphTypesOf rest := rfl

@[simp] theorem graphTypesOf_cons_str (k s : String) (rest : JObj) :
    graphTypesOf (JObj.cons k (JVal.str s) rest) =
      if k = "@graph" then [] else graphTypesOf rest := rfl

@[simp] theorem graphTypesOf_cons_num (k : String) (n : Int) (rest : JObj) :
    graphTypesOf (JObj.cons k (JVal.num n) rest) =
      if k = "@graph" then [] else graphTypesOf rest := rfl

@[simp] theorem graphTypesOf_cons_bool (k : String) (b : Bool) (rest : JObj) :
    graphTypesOf (JObj.cons k (JVal.bool b) rest) =
      if k = "@graph" then [] else graphTypesOf rest := rfl

@[simp] theorem graphTypesOf_cons_null (k : String) (rest : JObj) :
    graphTypesOf (JObj.cons k JVal.null rest) =
      if k = "@graph" then [] else graphTypesOf rest := rfl

@[simp] theorem graphTypesOf_cons_obj (k : String) (fs : JObj) (rest : JObj) :
    graphTypesOf (JObj.cons k (JVal.obj fs) rest) =
      if k = "@graph" then [] else graphTypesOf rest := rfl

@[simp] theorem graphTypes_nil : graphTypes JArr.nil = [] := rfl

@[simp] theorem graphTypes_cons (x : JVal) (xs : JArr) :
    graphTypes (JArr.cons x xs) = codeTypes x ++ graphTypes xs := rfl

@[simp] theorem fieldTypes_nil : fieldTypes JObj.nil = [] := rfl

@[simp] theorem fieldTypes_cons_obj (k : String) (fs : JObj) (rest : JObj) :
    fieldTypes (JObj.cons k (JVal.obj fs) rest) =
      codeTypes (JVal.obj fs) ++ fieldTypes rest := rfl

@[simp] theorem fieldTypes_cons_arr (k : String) (items : JArr) (rest : JObj) :
    fieldTypes (JObj.cons k (JVal.arr items) rest) =
      itemTypes items ++ fieldTypes rest := rfl

@[simp] theorem fieldTypes_cons_str (k s : String) (rest : JObj) :
    fieldTypes (JObj.cons k (JVal.str s) rest) = fieldTypes rest := rfl

@[simp] theorem fieldTypes_cons_num (k : String) (n : Int) (rest : JObj) :
    fieldTypes (JObj.cons k (JVal.num n) rest) = fieldTypes rest := rfl

@[simp] theorem fieldTypes_cons_bool (k : String) (b : Bool) (rest : JObj) :
    fieldTypes (JObj.cons k (JVal.bool b) rest) = fieldTypes rest := rfl

@[simp] theorem fieldTypes_cons_null (k : String) (rest : JObj) :
    fieldTypes (JObj.cons k JVal.null rest) = fieldTypes rest := rfl

@[simp] theorem valueTypes_nil : valueTypes JArr.nil = [] := rfl

@[simp] theorem valueTypes_cons_obj (fs : JObj) (vs : JArr) :
    valueTypes (JArr.cons (JVal.obj fs) vs) =
      codeTypes (JVal.obj fs) ++ valueTypes vs := rfl

@[simp] theorem valueTypes_cons_arr (items : JArr) (vs : JArr) :
    valueTypes (JArr.cons (JVal.arr items) vs) = itemTypes items ++ valueTypes vs := rfl

@[simp] theorem valueTypes_cons_str (s : String) (vs : JArr) :
    valueTypes (JArr.cons (JVal.str s) vs) = valueTypes vs := rfl

@[simp] theorem valueTypes_cons_num (n : Int) (vs : JArr) :
    valueTypes (JArr.cons (JVal.num n) vs) = valueTypes vs := rfl

@[simp] theorem valueTypes_cons_bool (b : Bool) (vs : JArr) :
    valueTypes (JArr.cons (JVal.bool b) vs) = valueTypes vs := rfl

@[simp] theorem valueTypes_cons_null (vs : JArr) :
    valueTypes (JArr.cons JVal.null vs) = valueTypes vs := rfl

@[simp] theorem itemTypes_nil : itemTypes JArr.nil = [] := rfl

@[simp] theorem itemTypes_cons_obj (fs : JObj) (xs : JArr) :
    itemTypes (JArr.cons (JVal.obj fs) xs) =
      codeTypes (JVal.obj fs) ++ itemTypes xs := rfl

@[simp] theorem itemTypes_cons_arr (ys : JArr) (xs : JArr) :
    itemTypes (JArr.cons (JVal.arr ys) xs) =
      codeTypes (JVal.arr ys) ++ itemTypes xs := rfl

@[simp] theorem itemTypes_cons_str (s : String) (xs : JArr) :
    itemTypes (JArr.cons (JVal.str s) xs) = itemTypes xs := rfl

@[simp] theorem itemTypes_cons_num (n : Int) (xs : JArr) :
    itemTypes (JArr.cons (JVal.num n) xs) = itemTypes xs := rfl

@[simp] theorem itemTypes_cons_bool (b : Bool) (xs : JArr) :
    itemTypes (JArr.cons (JVal.bool b) xs) = itemTypes xs := rfl

@[simp] theorem itemTypes_cons_null (xs : JArr) :
    itemTypes (JArr.cons JVal.null xs) = itemTypes xs := rfl

theorem addTypes_append (l1 l2 : List String) (st : SchemaState) :
    addTypes (l1 ++ l2) st = addTypes l2 (addTypes l1 st) := by
  simp [addTypes, List.foldl_append]

theorem typeStep_eq (fields : JObj) (st : SchemaState) :
    typeStep fields st = addTypes (typeHead fields) st := by
  unfold typeStep typeHead
  cases jlookup fields "@type" with
  | none => rfl
  | some tv => rfl

/-- Joint bridge between the stateful walk and its pure type sequence,
proved by strong induction on the size of the JSON value. -/
theorem extract_bridge : ∀ n : ℕ,
    (∀ v : JVal, sizeOf v ≤ n → ∀ st, extractSchemaTypes v st = addTypes (codeTypes v) st) ∧
    (∀ xs : JArr, sizeOf xs ≤ n →
      (∀ st, extractGraph xs st = addTypes (graphTypes xs) st) ∧
      (∀ st, extractValues xs st = addTypes (valueTypes xs) st) ∧
      (∀ st, extractItems xs st = addTypes (itemTypes xs) st)) ∧
    (∀ fs : JObj, sizeOf fs ≤ n →
      (∀ st, extractGraphOf fs st = addTypes (graphTypesOf fs) st) ∧
      (∀ st, extractFields fs st = addTypes (fieldTypes fs) st)) := by
  intro n
  induction n with
  | zero =>
    refine ⟨fun v hv => ?_, fun xs hxs => ?_, fun fs hfs => ?_⟩
    · exfalso; cases v <;> simp at hv
    · exfalso; cases xs <;> simp at hxs
    · exfalso; cases fs <;> simp at hfs
  | succ n ih =>
    obtain ⟨ihA, ihB, ihC⟩ := ih
    refine ⟨fun v hv => ?_, fun xs hxs => ?_, fun fs hfs => ?_⟩
    · cases v with
      | str s => intro st; simp [addTypes]
      | num k => intro st; simp [addTypes]
      | bool b => intro st; simp [addTypes]
      | null => intro st; simp [addTypes]
      | arr xs =>
        intro st
        have hxs : sizeOf xs ≤ n := by simp at hv; omega
        rw [extractSchemaTypes_arr, codeTypes_arr]
        exact (ihB xs hxs).2.1 st
      | obj fields =>
        intro st
        have hfs : sizeOf fields ≤ n := by simp at hv; omega
        rw [extractSchemaTypes_obj, codeTypes_obj]
        cases hg : hasGraphArr fields with
        | true =>
          rw [if_pos rfl, if_pos rfl]
          exact (ihC fields hfs).1 st
        | false =>
          rw [if_neg Bool.false_ne_true, if_neg Bool.false_ne_true, addTypes_append,
            typeStep_eq]
          exact (ihC fields hfs).2 (addTypes (typeHead fields) st)
    · cases xs with
      | nil => exact ⟨fun st => rfl, fun st => rfl, fun st => rfl⟩
      | cons x tl =>
        have hx : sizeOf x ≤ n := by simp at hxs; omega
        have htl : sizeOf tl ≤ n := by simp at hxs; omega
        refine ⟨fun st => ?_, fun st => ?_, fun st => ?_⟩
        · rw [extractGraph_cons, graphTypes_cons, addTypes_append, ihA x hx st]
          exact (ihB tl htl).1 (addTypes (codeTypes x) st)
        · cases x with
          | obj fs =>
            rw [extractValues_cons_obj, valueTypes_cons_obj, addTypes_append,
              ihA (JVal.obj fs) hx st]
            exact (ihB tl htl).2.1 _
          | arr items =>
            have hitems : sizeOf items ≤ n := by simp at hx; omega
            rw [extractValues_cons_arr, valueTypes_cons_arr, addTypes_append,
              (ihB items hitems).2.2 st]
            exact (ihB tl htl).2.1 _
          | str s => rw [extractValues_cons_str, valueTypes_cons_str]; exact (ihB tl htl).2.1 st
          | num k => rw [extractValues_cons_num, valueTypes_cons_num]; exact (ihB tl htl).2.1 st
          | bool b =>
            rw [extractValues_cons_bool, valueTypes_cons_bool]; exact (ihB tl htl).2.1 st
          | null => rw [extractValues_cons_null, valueTypes_cons_null]; exact (ihB tl htl).2.1 st
        · cases x with
          | obj fs =>
            rw [extractItems_cons_obj, itemTypes_cons_obj, addTypes_append,
              ihA (JVal.obj fs) hx st]
            exact (ihB tl htl).2.2 _
          | arr ys =>
            rw [extractItems_cons_arr, itemTypes_cons_arr, addTypes_append,
              ihA (JVal.arr ys) hx st]
            exact (ihB tl htl).2.2 _
          | str s => rw [extractItems_cons_str, itemTypes_cons_str]; exact (ihB tl htl).2.2 st
          | num k => rw [extractItems_cons_num, itemTypes_cons_num]; exact (ihB tl htl).2.2 st
          | bool b => rw [extractItems_cons_bool, itemTypes_cons_bool]; exact (ihB tl htl).2.2 st
          | null => rw [extractItems_cons_null, itemTypes_cons_null]; exact (ihB tl htl).2.2 st
    · cases fs with
      | nil => exact ⟨fun st => rfl, fun st => rfl⟩
      | cons k v tl =>
        have hv : sizeOf v ≤ n := by simp at hfs; omega
        have htl : sizeOf tl ≤ n := by simp at hfs; omega
        refine ⟨fun st => ?_, fun st => ?_⟩
        · rcases eq_or_ne k "@graph" with hk | hk
          · cases v with
            | arr items =>
              have hitems : sizeOf items ≤ n := by simp at hv; omega
              rw [extractGraphOf_cons_arr, graphTypesOf_cons_arr, if_pos hk, if_pos hk]
              exact (ihB items hitems).1 st
            | str s => rw [extractGraphOf_cons_str, graphTypesOf_cons_str, if_pos hk, if_pos hk]; rfl
            | num m => rw [extractGraphOf_cons_num, graphTypesOf_cons_num, if_pos hk, if_pos hk]; rfl
            | bool b =>
              rw [extractGraphOf_cons_bool, graphTypesOf_cons_bool, if_pos hk, if_pos hk]; rfl
            | null => rw [extractGraphOf_cons_null, graphTypesOf_cons_null, if_pos hk, if_pos hk]; rfl
            | obj fs2 => rw [extractGraphOf_cons_obj, graphTypesOf_cons_obj, if_pos hk, if_pos hk]; rfl
          · cases v with
            | arr items =>
              rw [extractGraphOf_cons_arr, graphTypesOf_cons_arr, if_neg hk, if_neg hk]
              exact (ihC tl htl).1 st
            | str s =>
              rw [extractGraphOf_cons_str, graphTypesOf_cons_str, if_neg hk, if_neg hk]
              exact (ihC tl htl).1 st
            | num m =>
              rw [extractGraphOf_cons_num, graphTypesOf_cons_num, if_neg hk, if_neg hk]
              exact (ihC tl htl).1 st
            | bool b =>
              rw [extractGraphOf_cons_bool, graphTypesOf_cons_bool, if_neg hk, if_neg hk]
              exact (ihC tl htl).1 st
            | null =>
              rw [extractGraphOf_cons_null, graphTypesOf_cons_null, if_neg hk, if_neg hk]
              exact (ihC tl htl).1 st
            | obj fs2 =>
              rw [extractGraphOf_cons_obj, graphTypesOf_cons_obj, if_neg hk, if_neg hk]
              exact (ihC tl htl).1 st
        · cases v with
          | obj fs2 =>
            rw [extractFields_cons_obj, fieldTypes_cons_obj, addTypes_append,
              ihA (JVal.obj fs2) hv st]
            exact (ihC tl htl).2 _
          | arr items =>
            have hitems : sizeOf items ≤ n := by simp at hv; omega
            rw [extractFields_cons_arr, fieldTypes_cons_arr, addTypes_append,
              (ihB items hitems).2.2 st]
            exact (ihC tl htl).2 _
          | str s => rw [extractFields_cons_str, fieldTypes_cons_str]; exact (ihC tl htl).2 st
          | num m => rw [extractFields_cons_num, fieldTypes_cons_num]; exact (ihC tl htl).2 st
          | bool b => rw [extractFields_cons_bool, fieldTypes_cons_bool]; exact (ihC tl htl).2 st
          | null => rw [extractFields_cons_null, fieldTypes_cons_null]; exact (ihC tl htl).2 st

/-- The stateful walk equals feeding the pure visit sequence to `addType`. -/
theorem extract_eq_addTypes (v : JVal) (st : SchemaState) :
    extractSchemaTypes v st = addTypes (codeTypes v) st :=
  (extract_bridge (sizeOf v)).1 v le_rfl st

theorem foldl_scriptStep_eq :
    ∀ (scripts : List (Option JVal)) (st : SchemaState),
      scripts.foldl scriptStep st = addTypes (allScriptTypes scripts) st := by
  intro scripts
  induction scripts with
  | nil => intro st; rfl
  | cons s rest ih =>
    intro st
    cases s with
    | none =>
      show rest.foldl scriptStep st = addTypes (allScriptTypes (none :: rest)) st
      have : allScriptTypes (none :: rest) = allScriptTypes rest := by
        simp [allScriptTypes, scriptTypes]
      rw [this]
      exact ih st
    | some v =>
      show rest.foldl scriptStep (extractSchemaTypes v st)
        = addTypes (allScriptTypes (some v :: rest)) st
      have : allScriptTypes (some v :: rest) = codeTypes v ++ allScriptTypes rest := by
        simp [allScriptTypes, scriptTypes]
      rw [this, addTypes_append, ← extract_eq_addTypes]
      exact ih (extractSchemaTypes v st)

theorem processScripts_eq (scripts : List (Option JVal)) :
    processScripts scripts = addTypes (allScriptTypes scripts) initSchemaState :=
  foldl_scriptStep_eq scripts initSchemaState

theorem addType_schemaTypes (t : String) (st : SchemaState) :
    (addType t st).schemaTypes = typeFold st.schemaTypes t := by
  unfold addType typeFold
  split <;> rfl

theorem addTypes_schemaTypes :
    ∀ (ts : List String) (st : SchemaState),
      (addTypes ts st).schemaTypes = ts.foldl typeFold st.schemaTypes := by
  intro ts
  induction ts with
  | nil => intro st; rfl
  | cons t rest ih =>
    intro st
    show (addTypes rest (addType t st)).schemaTypes = rest.foldl typeFold (typeFold st.schemaTypes t)
    rw [ih (addType t st), addType_schemaTypes]

theorem addType_identInv (t : String) (st : SchemaState) (h : identInv st) :
    identInv (addType t st) := by
  unfold addType
  split
  · unfold identInv at h ⊢
    cases hit : isIdentityType t with
    | true => simp [hit, List.filter_append, List.getLast?_concat]
    | false => simpa [hit, List.filter_append] using h
  · exact h

theorem addTypes_identInv :
    ∀ (ts : List String) (st : SchemaState), identInv st → identInv (addTypes ts st) := by
  intro ts
  induction ts with
  | nil => intro st h; exact h
  | cons t rest ih =>
    intro st h
    exact ih (addType t st) (addType_identInv t st h)

theorem processScripts_identInv (scripts : List (Option JVal)) :
    identInv (processScripts scripts) := by
  rw [processScripts_eq]
  refine addTypes_identInv _ _ ?_
  unfold identInv initSchemaState
  rfl

theorem pctRound_eq (a b : ℕ) (hb : 0 < b) :
    pctRound a b = (200 * a + b) / (2 * b) := by
  unfold pctRound
  rw [round_eq]
  have hb' : (b : ℚ) ≠ 0 := by positivity
  have key : (a : ℚ) / (b : ℚ) * 100 + 1 / 2 = ((200 * a + b : ℕ) : ℚ) / ((2 * b : ℕ) : ℚ) := by
    push_cast
    field_simp
    ring
  rw [key, Int.floor_toNat, Nat.floor_div_nat]
  norm_cast

theorem telFold_eq :
    ∀ (telTexts : List String) (acc : List PhoneMatch),
      telTexts.foldl (fun acc t => if telValid t then ⟨"tel:link", trimWS t⟩ :: acc else acc)
          acc
        = ((validTelDisplays telTexts).reverse.map fun v => (⟨"tel:link", v⟩ : PhoneMatch))
            ++ acc := by
  intro telTexts
  induction telTexts with
  | nil => intro acc; simp [validTelDisplays]
  | cons t rest ih =>
    intro acc
    cases hv : telValid t with
    | true =>
      rw [List.foldl_cons]
      simp only [hv, if_true]
      rw [ih]
      simp [validTelDisplays, hv, List.filterMap_cons]
    | false =>
      rw [List.foldl_cons]
      simp only [hv, Bool.false_eq_true, if_false]
      rw [ih]
      simp [validTelDisplays, hv, List.filterMap_cons]

/-! ### Helper lemmas for the claims -/

theorem mkImagesData_eval (imgs : List ImageTag) (h : 0 < imgs.length) :
    mkImagesData imgs =
      { total := imgs.length
        withAlt := (imgs.filter imgHasAlt).length
        withoutAlt := imgs.length - (imgs.filter imgHasAlt).length
        altPercentage := (200 * (imgs.filter imgHasAlt).length + imgs.length)
          / (2 * imgs.length) } := by
  unfold mkImagesData
  rw [if_pos h, pctRound_eq _ _ h]

theorem titlePoints_le (m : MetaTags) : titlePoints m ≤ 12 := by
  unfold titlePoints
  split_ifs <;> omega

theorem descriptionPoints_le (m : MetaTags) : descriptionPoints m ≤ 8 := by
  unfold descriptionPoints
  split_ifs <;> omega

theorem h1Points_le (h : Headings) : h1Points h ≤ 8 := by
  unfold h1Points
  cases hht : h.h1Text with
  | nil => split_ifs <;> simp
  | cons t rest =>
    have hm : (match t :: rest with
        | t :: _ => if 20 ≤ t.length then 8 else 1
        | [] => 1) = if 20 ≤ t.length then 8 else 1 := rfl
    rw [hm]
    split_ifs <;> omega

theorem headingStructurePoints_le (h : Headings) : headingStructurePoints h ≤ 5 := by
  unfold headingStructurePoints
  split_ifs <;> omega

theorem altTextPoints_le (img : ImagesData) : altTextPoints img ≤ 4 := by
  unfold altTextPoints
  split_ifs <;> omega

theorem contentPoints_le (c : ContentFacts) : contentPoints c ≤ 8 := by
  unfold contentPoints
  split_ifs <;> omega

theorem onPagePoints_le (m : MetaTags) (h : Headings) (img : ImagesData) (c : ContentFacts) :
    onPagePoints m h img c ≤ 45 := by
  unfold onPagePoints
  have h1 := titlePoints_le m
  have h2 := descriptionPoints_le m
  have h3 := h1Points_le h
  have h4 := headingStructurePoints_le h
  have h5 := altTextPoints_le img
  have h6 := contentPoints_le c
  omega

theorem technicalPoints_le (t : TechnicalFacts) : technicalPoints t ≤ 30 := by
  unfold technicalPoints
  split_ifs <;> omega

theorem localPoints_le (l : LocalFacts) : localPoints l ≤ 15 := by
  unfold localPoints
  split_ifs <;> omega

theorem socialPoints_le (s : SocialFacts) : socialPoints s ≤ 10 := by
  unfold socialPoints
  split_ifs <;> omega

theorem hasGraphArr_of_lookup (fields : JObj) (items : JArr)
    (h : jlookup fields "@graph" = some (JVal.arr items)) : hasGraphArr fields = true := by
  unfold hasGraphArr
  rw [h]

theorem graphTypes_toList (items : JArr) :
    graphTypes items = (items.toList.map codeTypes).flatten := by
  have key : ∀ n : ℕ, ∀ items : JArr, sizeOf items ≤ n →
      graphTypes items = (items.toList.map codeTypes).flatten := by
    intro n
    induction n with
    | zero => intro items h; exfalso; cases items <;> simp at h
    | succ n ih =>
      intro items h
      cases items with
      | nil => rfl
      | cons x xs =>
        have hxs : sizeOf xs ≤ n := by simp at h; omega
        rw [graphTypes_cons, JArr.toList, List.map_cons, List.flatten_cons, ih xs hxs]
  exact key (sizeOf items) items le_rfl

theorem jlookup_graphTypesOf (fields : JObj) (items : JArr)
    (h : jlookup fields "@graph" = some (JVal.arr items)) :
    graphTypesOf fields = graphTypes items := by
  have key : ∀ n : ℕ, ∀ fields : JObj, sizeOf fields ≤ n →
      jlookup fields "@graph" = some (JVal.arr items) →
      graphTypesOf fields = graphTypes items := by
    intro n
    induction n with
    | zero => intro fields hle _; exfalso; cases fields <;> simp at hle
    | succ n ih =>
      intro fields hle hlook
      cases fields with
      | nil => simp [jlookup] at hlook
      | cons k v rest =>
        have hrest : sizeOf rest ≤ n := by simp at hle; omega
        unfold jlookup at hlook
        by_cases hk : "@graph" = k
        · rw [if_pos hk] at hlook
          injection hlook with hv
          subst hv
          rw [graphTypesOf_cons_arr, if_pos hk.symm]
        · rw [if_neg hk] at hlook
          have hr := ih rest hrest hlook
          cases v with
          | str s => rw [graphTypesOf_cons_str, if_neg (Ne.symm hk)]; exact hr
          | num m => rw [graphTypesOf_cons_num, if_neg (Ne.symm hk)]; exact hr
          | bool b => rw [graphTypesOf_cons_bool, if_neg (Ne.symm hk)]; exact hr
          | null => rw [graphTypesOf_cons_null, if_neg (Ne.symm hk)]; exact hr
          | arr ys => rw [graphTypesOf_cons_arr, if_neg (Ne.symm hk)]; exact hr
          | obj fs => rw [graphTypesOf_cons_obj, if_neg (Ne.symm hk)]; exact hr
  exact key (sizeOf fields) fields le_rfl h

/-- Claim C1 (counterexample to the grade): at the spec's worked example
input (55-character title, no description, one 25-character H1, ten images
all with alt text, SSL only, no structured data, no contact facts, no
social links, body under 50 words) the engine's total is indeed 29, but
the grade mapped from 29 is `"F"`, not the `"D-"` the spec's example
asserts: the `else if (score >= 35)` rung is the last one before the
initial `"F"`, so 29 falls through the whole ladder. -/
theorem c1_spec_example_grade_refuted :
    totalScore exMetaTags exHeadings exImages exContent exTechnical exLocal exSocial = 29 ∧
      gradeOf (totalScore exMetaTags exHeadings exImages exContent exTechnical exLocal
        exSocial) ≠ "D-" := by
  have himg : exImages = ⟨10, 10, 0, 100⟩ := by
    unfold exImages
    rw [mkImagesData_eval _ (by decide)]
    decide
  rw [show totalScore exMetaTags exHeadings exImages exContent exTechnical exLocal exSocial
      = 29 by rw [himg]; decide]
  exact ⟨rfl, by decide⟩

/-- Claim C1 (amended): at the spec's worked example input the category
scores are onPage = 24 (12 title + 0 description + 8 H1 + 0 headings +
4 alt + 0 content), technical = 5 (SSL only), local = 0, social = 0,
total = 29 — and the grade mapped from 29 is `"F"` (the spec's own grade
table maps only scores ≥ 35 to `"D-"`). -/
theorem c1_spec_example_scores :
    onPagePoints exMetaTags exHeadings exImages exContent = 24 ∧
      technicalPoints exTechnical = 5 ∧
      localPoints exLocal = 0 ∧
      socialPoints exSocial = 0 ∧
      totalScore exMetaTags exHeadings exImages exContent exTechnical exLocal exSocial = 29 ∧
      gradeOf 29 = "F" := by
  have himg : exImages = ⟨10, 10, 0, 100⟩ := by
    unfold exImages
    rw [mkImagesData_eval _ (by decide)]
    decide
  rw [himg]
  refine ⟨by decide, by decide, by decide, by decide, by decide, by decide⟩

/-- Claim C2: for every input the total equals the plain arithmetic sum of
the four category accumulators with no clamping (first conjunct, holding
definitionally of `totalScore`), every category stays within its maximum
(45, 30, 15, 10), and the total never exceeds 100; all point values are
natural numbers built by adding fixed non-negative awards, so no category
and no total can be negative. -/
theorem c2_total_is_sum_and_bounded (m : MetaTags) (h : Headings) (img : ImagesData)
    (c : ContentFacts) (t : TechnicalFacts) (l : LocalFacts) (s : SocialFacts) :
    totalScore m h img c t l s
        = onPagePoints m h img c + technicalPoints t + localPoints l + socialPoints s ∧
      onPagePoints m h img c ≤ 45 ∧ technicalPoints t ≤ 30 ∧ localPoints l ≤ 15 ∧
      socialPoints s ≤ 10 ∧ totalScore m h img c t l s ≤ 100 := by
  have h1 := onPagePoints_le m h img c
  have h2 := technicalPoints_le t
  have h3 := localPoints_le l
  have h4 := socialPoints_le s
  refine ⟨rfl, h1, h2, h3, h4, ?_⟩
  unfold totalScore
  omega

/-- Claim C3 (counterexample): a single script whose `@type` array lists
`Organization` then `Person` is traversed in that order (as `schemaTypes`
records), yet the reported `identityType` is `"Person"` — the walk
overwrites `identityType` at every new matching type, so the last match
wins, not the first as the claim states. -/
theorem c3_first_identity_refuted :
    (processScripts c3CexScripts).schemaTypes = ["Organization", "Person"] ∧
      (processScripts c3CexScripts).hasIdentitySchema = true ∧
      (processScripts c3CexScripts).identityType = "Person" ∧
      ("Person" : String) ≠ "Organization" := by
  refine ⟨by decide, by decide, by decide, by decide⟩

/-- Claim C3 (amended): whenever the traversal records two or more (in
fact one or more) distinct identity types, `hasIdentitySchema` is true and
`identityType` is the last — not the first — matching type in first-seen
traversal order. -/
theorem c3_identity_is_last_match (scripts : List (Option JVal))
    (h2 : 2 ≤ ((processScripts scripts).schemaTypes.filter isIdentityType).length) :
    (processScripts scripts).hasIdentitySchema = true ∧
      ((processScripts scripts).schemaTypes.filter isIdentityType).getLast?
        = some (processScripts scripts).identityType := by
  have hinv := processScripts_identInv scripts
  unfold identInv at hinv
  cases hI : (processScripts scripts).hasIdentitySchema with
  | false =>
    exfalso
    rw [hI] at hinv
    simp only [Bool.false_eq_true, if_false] at hinv
    cases hfl : ((processScripts scripts).schemaTypes.filter isIdentityType) with
    | nil => rw [hfl] at h2; simp at h2
    | cons a l => rw [hfl] at hinv; simp [List.getLast?] at hinv
  | true =>
    rw [hI] at hinv
    simp only [if_true] at hinv
    exact ⟨rfl, hinv⟩

/-- Witness for the amended C3 at the two-identity-type script. -/
theorem c3_identity_is_last_match_witness :
    2 ≤ ((processScripts c3CexScripts).schemaTypes.filter isIdentityType).length ∧
      (processScripts c3CexScripts).hasIdentitySchema = true ∧
      ((processScripts c3CexScripts).schemaTypes.filter isIdentityType).getLast?
        = some (processScripts c3CexScripts).identityType :=
  ⟨by decide, c3_identity_is_last_match c3CexScripts (by decide)⟩

/-- Claim C4 (counterexample): a script whose `@graph` holds a `null`
member ahead of a member with an acceptable string address (here 28
characters, well over 15) yields no structured-data address at all —
`null.address` throws into the per-script catch before the good member is
reached — so with a US-street regex match present the reported address is
the regex one, source `"US address pattern"`, not the JSON-LD-derived one
the claim promises. -/
theorem c4_null_graph_member_refuted :
    extractAddress (jObj [("address", jStr "123 Main Street, Springfield")])
        = some "123 Main Street, Springfield" ∧
      15 < ("123 Main Street, Springfield" : String).length ∧
      findSchemaAddress c4NullGraphScripts = none ∧
      detectAddress c4NullGraphScripts c4Inputs
        = some ⟨"456 Oak Avenue Springfield IL 62702", "US address pattern"⟩ := by
  refine ⟨rfl, by decide, rfl, rfl⟩

/-- Claim C4 (amended): whenever the Schema.org pass ACCEPTS an address (a
JSON-LD address candidate longer than 15 characters, reached before any
`null` `@graph` member aborts its script's scan), the reported contact
address is exactly that candidate with source `"Schema.org"`, whatever the
US regex, PO-Box, microdata or CSS-selector inputs hold; and the fallback
candidate list is consulted only when the Schema.org pass accepted
nothing, in which case its first candidate wins. -/
theorem c4_schema_address_precedence (scripts : List (Option JVal))
    (inp : AddressScanInputs) :
    (∀ a, findSchemaAddress scripts = some a →
        detectAddress scripts inp = some ⟨a, "Schema.org"⟩) ∧
      (findSchemaAddress scripts = none →
        detectAddress scripts inp
          = (fallbackCandidates inp).head?.map fun c => ⟨trimWS c.text, c.source⟩) := by
  constructor
  · intro a ha
    unfold detectAddress
    rw [ha]
  · intro hn
    unfold detectAddress
    rw [hn]
    cases fallbackCandidates inp <;> rfl

/-- Witness for C4: a `PostalAddress`-style JSON-LD object coexisting with
a US-street regex match in the body; the JSON-LD-derived address wins. -/
theorem c4_schema_address_precedence_witness :
    findSchemaAddress [some c4Schema] = some "123 Main Street, Springfield, IL, 62701" ∧
      c4Inputs.usMatches ≠ [] ∧
      detectAddress [some c4Schema] c4Inputs
        = some ⟨"123 Main Street, Springfield, IL, 62701", "Schema.org"⟩ :=
  ⟨by decide, by decide,
    (c4_schema_address_precedence [some c4Schema] c4Inputs).1 _ (by decide)⟩

/-- Claim C5 (counterexample): a `@graph` member carrying both its own
`@type` (`"X"`) and a nested `@graph` (with a member of type `"Y"`) loses
its own type: the walk expands the member's `@graph` and returns without
reading the member's `@type`, so `schemaTypes` is `["Y"]` and misses
`"X"`, though `"X"` is among the member's types (as the spec-side
`allTypesSpec` records). -/
theorem c5_graph_union_refuted :
    "X" ∈ allTypesSpec c5Member ∧
      (processScripts c5Scripts).schemaTypes = ["Y"] ∧
      "X" ∉ (processScripts c5Scripts).schemaTypes := by
  refine ⟨by decide, by decide, by decide⟩

/-- Claim C5 (amended): for a script whose top-level object holds an
`@graph` array and whose `@type` values consist only of strings (or falsy
entries the code skips) — the `typesOk` domain, since a truthy non-string
`@type` entry is pushed raw into `schemaTypes` (arrays and objects under
reference identity) and every non-array one then throws on
`type.includes`, truncating the walk mid-script — `schemaTypes` is the
first-seen deduplication (empty strings dropped) of the concatenation of
the members' visit sequences in member order, where a member that itself
carries an `@graph` array contributes only its own graph members' types,
its sibling `@type` and other fields being skipped. -/
theorem c5_graph_types_dedup_first_seen (fields : JObj) (members : JArr)
    (_hdom : typesOk (JVal.obj fields) = true)
    (h : jlookup fields "@graph" = some (JVal.arr members)) :
    (processScripts [some (JVal.obj fields)]).schemaTypes
      = firstSeenTypes ((members.toList.map codeTypes).flatten) := by
  rw [processScripts_eq, addTypes_schemaTypes]
  have h1 : allScriptTypes [some (JVal.obj fields)] = codeTypes (JVal.obj fields) := by
    simp [allScriptTypes, scriptTypes]
  rw [h1, codeTypes_obj, if_pos (hasGraphArr_of_lookup fields members h),
    jlookup_graphTypesOf fields members h, graphTypes_toList]
  rfl

/-- Witness for the amended C5 at the nested-`@graph` script, which is
inside the `typesOk` domain. -/
theorem c5_graph_types_dedup_first_seen_witness :
    typesOk (JVal.obj c5Fields) = true ∧
      jlookup c5Fields "@graph" = some (JVal.arr (JArr.ofList [c5Member])) ∧
      (processScripts [some (JVal.obj c5Fields)]).schemaTypes
        = firstSeenTypes (((JArr.ofList [c5Member]).toList.map codeTypes).flatten) :=
  ⟨by decide, rfl,
    c5_graph_types_dedup_first_seen c5Fields (JArr.ofList [c5Member]) (by decide) rfl⟩

/-- Claim C6: parse failures are local — the script loop over any list of
parse results equals the loop over the successfully parsed scripts alone,
so any subset of failing scripts is skipped while every remaining script
still contributes its types, and the audit itself never fails (the loop is
total). -/
theorem c6_parse_failures_skipped (scripts : List (Option JVal)) :
    processScripts scripts = processScripts ((scripts.filterMap id).map some) := by
  rw [processScripts_eq, processScripts_eq]
  have : allScriptTypes scripts = allScriptTypes ((scripts.filterMap id).map some) := by
    induction scripts with
    | nil => rfl
    | cons s rest ih =>
      cases s with
      | none =>
        simp only [List.filterMap_cons, allScriptTypes, List.map_cons, List.flatten_cons,
          scriptTypes] at ih ⊢
        simpa using ih
      | some v =>
        simp only [List.filterMap_cons, allScriptTypes, List.map_cons, List.flatten_cons,
          scriptTypes, id] at ih ⊢
        rw [ih]
  rw [this]

/-- Claim C7: for every image list the records partition — `withAlt`
counts exactly the images whose alt attribute exists with non-empty
trimmed text, and `withAlt + withoutAlt = total`. -/
theorem c7_images_alt_partition (imgs : List ImageTag) :
    (mkImagesData imgs).withAlt + (mkImagesData imgs).withoutAlt = (mkImagesData imgs).total ∧
      (mkImagesData imgs).withAlt = (imgs.filter imgHasAlt).length := by
  refine ⟨?_, rfl⟩
  show (imgs.filter imgHasAlt).length + (imgs.length - (imgs.filter imgHasAlt).length)
    = imgs.length
  have hle := List.length_filter_le imgHasAlt imgs
  omega

/-- Claim C8: a body text that is empty after whitespace collapsing and
trimming yields word count 1, because splitting the empty string produces
the single empty token. -/
theorem c8_empty_body_word_count (s : String) (h : normalizedBody s = "") :
    wordCount s = 1 := by
  unfold wordCount
  rw [h]
  rfl

/-- Witness for C8 at the empty body. -/
theorem c8_empty_body_word_count_witness : normalizedBody "" = "" ∧ wordCount "" = 1 :=
  ⟨by decide, c8_empty_body_word_count "" (by decide)⟩

/-- Claim C9: the rendering ratio is the integer-rounded percentage of
visible text length over raw HTML length, and the division is guarded:
with HTML length 0 the result is 0 (never a division); for positive HTML
length the rounded percentage equals the closed natural-division form
`(200·text + html) / (2·html)`. -/
theorem c9_rendering_ratio_guarded_round (htmlSize textSize : ℕ) :
    renderingPercentage htmlSize textSize
      = if 0 < htmlSize then (200 * textSize + htmlSize) / (2 * htmlSize) else 0 := by
  unfold renderingPercentage
  split_ifs with h
  · exact pctRound_eq _ _ h
  · rfl

/-- Claim C10: with at least two valid tel: links (non-empty trimmed
display text containing a digit), each tel: link is unshifted onto the
front of the candidate list in document order, so the reported phone is
the display text of the last such link — and it displaces every body-text
regex match, whatever the four pattern families produced. -/
theorem c10_phone_last_tel_precedence (pat1 pat2 pat3 pat4 telTexts : List String)
    (h2 : 2 ≤ (validTelDisplays telTexts).length) :
    detectPhone pat1 pat2 pat3 pat4 telTexts = (validTelDisplays telTexts).getLast? := by
  unfold detectPhone phoneMatchesOf
  rw [telFold_eq]
  have hne : (validTelDisplays telTexts).reverse ≠ [] := by
    intro hc
    rw [List.reverse_eq_nil_iff] at hc
    rw [hc] at h2
    simp at h2
  obtain ⟨a, l, hl⟩ := List.exists_cons_of_ne_nil hne
  rw [hl]
  have hlast : (validTelDisplays telTexts).getLast? = some a := by
    rw [← List.head?_reverse, hl]
    rfl
  rw [hlast]
  rfl

/-- Witness for C10: two digit-bearing tel: links around a digitless one;
the last one is reported and displaces the body regex match. -/
theorem c10_phone_last_tel_precedence_witness :
    2 ≤ (validTelDisplays c10TelTexts).length ∧
      detectPhone ["999-999-9999"] [] [] [] c10TelTexts = some "(212) 555 0000" :=
  ⟨by decide,
    (c10_phone_last_tel_precedence ["999-999-9999"] [] [] [] c10TelTexts (by decide)).trans
      (by decide)⟩

